import Mathlib

/-!
Shallow embedding of the package-processing engine of
`Engine/Package.cpp` (UnrealEngineSDKGenerator), together with theorems
settling the specified properties of its algorithms: member-layout
reconstruction (`Package::GenerateMembers`), name de-duplication
(`GenerateEnum`, `GenerateMembers`, `GenerateMethods`), dependency
resolution and emission-order repair
(`GenerateScriptStructPrerequisites` / `GenerateClassPrerequisites`),
function-model synthesis (`GenerateMethods`), virtual-table scanning
(`GenerateClass`), and the empty-package skip rule (`Package::Save`).

External collaborators (name sanitizer, flag stringifier, the reflection
provider and the pattern-search primitive) are out of scope of the
source file; values they produce appear here as pre-computed fields of
the input records.
-/

namespace SDKGen

/-! ### Formatting helpers used by `tinyformat` calls in the source -/

/-- Model of `tfm::format("%02d", n)`: decimal, zero-padded to width two. -/
def fmt02 (n : Nat) : String :=
  if n < 10 then "0" ++ toString n else toString n

/-- Model of `tfm::format("%X", n)`: uppercase hexadecimal, no padding. -/
def hexUpper (n : Nat) : String :=
  ((Nat.toDigits 16 n).map Char.toUpper).asString

/-! ### Association-list model of the `std::unordered_map<std::string, size_t>`
name-conflict counters. Only lookup and update by key are used, so the
bucket order of the hash map is irrelevant. -/

/-- Lookup of a key in the conflict-counter map. -/
def lookupA (m : List (String × Nat)) (k : String) : Option Nat :=
  match m with
  | [] => none
  | (a, v) :: r => if a = k then some v else lookupA r k

/-- Update (or first insertion) of a key in the conflict-counter map. -/
def insertA (m : List (String × Nat)) (k : String) (v : Nat) : List (String × Nat) :=
  match m with
  | [] => [(k, v)]
  | (a, w) :: r => if a = k then (k, v) :: r else (a, w) :: insertA r k v

/-- One de-duplication step as performed in `Package::GenerateMembers`
(lines 536-545) and `Package::GenerateMethods` (lines 642-652): the first
occurrence stores counter 1 and keeps the name; a later occurrence first
increments the stored counter and then appends `fmt02` of the *incremented*
value (the C++ code increments through `operator[]` before reading
`it->second` for the format call). -/
def dedupStep (names : List (String × Nat)) (nm : String) : String × List (String × Nat) :=
  match lookupA names nm with
  | none => (nm, insertA names nm 1)
  | some k => (nm ++ fmt02 (k + 1), insertA names nm (k + 1))

/-! ### Data model: properties and members -/

/-- Result of `UEProperty::GetInfo()` as consumed by `Package.cpp`:
whether the semantic type resolved (`Type != PropertyType::Unknown`), the
mapped size, the C++ type text and the can-be-passed-by-reference flag. -/
structure PropInfo where
  known : Bool
  size : Nat
  cppType : String
  canBeReference : Bool
deriving DecidableEq

/-- The fields of a reflected property read by `Package.cpp`. `name` is
the result of `MakeValidName(prop.GetName())` and `flagsString` the result
of `StringifyFlags(prop.GetPropertyFlags())`; both sanitizers live outside
the source file, so their outputs are inputs here. -/
structure UEProp where
  offset : Nat
  elementSize : Nat
  arrayDim : Nat
  name : String
  fullName : String
  info : PropInfo
  isBool : Bool
  bitMask : Nat
  flags : Nat
  flagsString : String
deriving DecidableEq

/-- The `Package::Member` record. The C++ field `Type` is rendered here
as `TypeText` because `Type` is reserved in Lean. -/
structure Member where
  Name : String
  TypeText : String
  Offset : Nat
  Size : Nat
  Comment : String
  Flags : Nat
  FlagsString : String
deriving DecidableEq

/-- Model of `Package::Member::Unknown(id, offset, size, reason)`
(lines 196-205): name `UnknownData%02d[0x%X]`, type `unsigned char`. -/
def memberUnknown (id offset size : Nat) (reason : String) : Member :=
  { Name := "UnknownData" ++ fmt02 id ++ "[0x" ++ hexUpper size ++ "]"
    TypeText := "unsigned char"
    Offset := offset
    Size := size
    Comment := reason
    Flags := 0
    FlagsString := "" }

/-- Model of `ComparePropertyLess` (lines 22-32): order by offset, with
ties between two bool properties at the same offset broken by bit mask. -/
def comparePropertyLess (l r : UEProp) : Bool :=
  if l.offset = r.offset ∧ l.isBool = true ∧ r.isBool = true then
    decide (l.bitMask < r.bitMask)
  else
    decide (l.offset < r.offset)

/-- Insert an element into a list sorted by a strict-less predicate,
placing it before the first strictly greater element. -/
def insertSorted {α : Type} (less : α → α → Bool) (a : α) : List α → List α
  | [] => [a]
  | b :: bs => if less a b then a :: b :: bs else b :: insertSorted less a bs

/-- Insertion sort, modelling the `std::sort` calls of the source. The
C++ standard leaves the relative order of comparator-equivalent elements
unspecified; insertion sort is one conforming refinement (it keeps
equivalent elements in input order). -/
def sortByLess {α : Type} (less : α → α → Bool) (l : List α) : List α :=
  l.foldl (fun acc a => insertSorted less a acc) []

/-! ### `Package::GenerateMembers` (lines 511-586) -/

/-- The per-property loop of `Package::GenerateMembers` (lines 518-576).
State: layout cursor `off`, filler counter `ctr`, name-conflict map
`names`. Returns the emitted members, the final cursor and the final
filler counter. Note that, as in the source, the gap filler emitted at
line 523 does not advance the cursor variable, so the offset recorded for
a subsequent type-size-mismatch filler (line 565) or unresolved-property
filler (line 572) is the cursor value from before the gap. -/
def genMembersLoop : Nat → Nat → List (String × Nat) → List UEProp → List Member × Nat × Nat
  | off, ctr, _, [] => ([], off, ctr)
  | off, ctr, names, p :: ps =>
    let gapMs : List Member :=
      if off < p.offset then [memberUnknown ctr off (p.offset - off) "MISSED OFFSET"] else []
    let ctr1 : Nat := if off < p.offset then ctr + 1 else ctr
    if p.info.known then
      let nmNames := dedupStep names p.name
      let nm1 := nmNames.1 ++ (if p.arrayDim > 1 then "[0x" ++ hexUpper p.arrayDim ++ "]" else "")
      let nm2 := nm1 ++ (if p.isBool then " : 1" else "")
      let sp : Member :=
        { Name := nm2, TypeText := p.info.cppType, Offset := p.offset, Size := p.info.size
          Comment := "", Flags := p.flags, FlagsString := p.flagsString }
      let mismatch : Int := (p.elementSize * p.arrayDim : Int) - (p.info.size * p.arrayDim : Int)
      let mmMs : List Member :=
        if 0 < mismatch then
          [memberUnknown ctr1 off mismatch.toNat "FIX WRONG TYPE SIZE OF PREVIUS PROPERTY"]
        else []
      let ctr2 : Nat := if 0 < mismatch then ctr1 + 1 else ctr1
      let rest := genMembersLoop (p.offset + p.elementSize * p.arrayDim) ctr2 nmNames.2 ps
      (gapMs ++ sp :: mmMs ++ rest.1, rest.2)
    else
      let unk := memberUnknown ctr1 off (p.elementSize * p.arrayDim)
        ("UNKNOWN PROPERTY: " ++ p.fullName)
      let rest := genMembersLoop (p.offset + p.elementSize * p.arrayDim) (ctr1 + 1) names ps
      (gapMs ++ unk :: rest.1, rest.2)

/-- Model of `Package::GenerateMembers(structObj, offset, properties, members)`:
run the property loop, then (lines 578-585) emit one trailing filler for
the remainder up to `GetPropertySize()` when the remainder is at least
`generator->GetGlobalMemberAlignment()`. `total` is the struct property
size and `threshold` the global member alignment. -/
def generateMembers (total threshold off : Nat) (props : List UEProp) : List Member :=
  let r := genMembersLoop off 0 [] props
  if r.2.1 < total then
    if threshold ≤ total - r.2.1 then
      r.1 ++ [memberUnknown r.2.2 r.2.1 (total - r.2.1) "MISSED OFFSET"]
    else r.1
  else r.1

/-! ### Layout predicates for the tiling claims -/

/-- Exact tiling check: the members, in emission order, cover the byte
interval from `lo` to `hi` with neither overlap nor gap (each member
starts where the previous one ended). -/
def tilesFrom : Nat → List Member → Nat → Bool
  | lo, [], hi => lo == hi
  | lo, m :: ms, hi => (m.Offset == lo) && tilesFrom (lo + m.Size) ms hi

/-- Byte offsets of the emitted members are non-decreasing. -/
def offsetsNondec : List Member → Bool
  | [] => true
  | [_] => true
  | a :: b :: ms => decide (a.Offset ≤ b.Offset) && offsetsNondec (b :: ms)

/-- Hypothesis bundle for the repaired tiling statement: every property
is type-resolved, scalar (array dimension 1), has a mapped size equal to
its element size, and the properties are laid out in ascending order
without overlap starting at or after the cursor. -/
def wellFormedFrom : Nat → List UEProp → Bool
  | _, [] => true
  | c, p :: ps =>
    p.info.known && (p.arrayDim == 1) && (p.elementSize == p.info.size)
      && decide (c ≤ p.offset)
      && wellFormedFrom (p.offset + p.elementSize * p.arrayDim) ps

/-- Final value of the layout cursor after the property loop. -/
def finalCursor : Nat → List UEProp → Nat
  | c, [] => c
  | _, p :: ps => finalCursor (p.offset + p.elementSize * p.arrayDim) ps

/-! ### Enums and constants (`GenerateEnum`, lines 264-298) -/

/-- The `Package::Enum` record. -/
structure Enum where
  Name : String
  FullName : String
  Values : List String
deriving DecidableEq

/-- Bool substring test over character lists, modelling
`std::string::find(pat) != std::string::npos`. -/
def strContains (s pat : String) : Bool :=
  s.toList.tails.any (fun t => pat.toList.isPrefixOf t)

/-- The value de-duplication loop of `Package::GenerateEnum`
(lines 279-295). Unlike the member and parameter loops, this one formats
`it->second` *before* incrementing the counter, so the second occurrence
of a name receives suffix `01`. -/
def enumValuesDedup (conflicts : List (String × Nat)) : List String → List String
  | [] => []
  | s :: rest =>
    match lookupA conflicts s with
    | none => s :: enumValuesDedup (insertA conflicts s 1) rest
    | some k => (s ++ fmt02 k) :: enumValuesDedup (insertA conflicts s (k + 1)) rest

/-- Model of `Package::GenerateEnum(enumObj)`: skip when the unique C++
name contains a placeholder marker, otherwise emit the enum with
de-duplicated value names. `nameUnique` is the result of the external
`MakeUniqueCppName` and `names` the already-sanitized `GetNames()` list
(each element passed through the external `MakeValidName`). -/
def generateEnum (nameUnique fullName : String) (names : List String) : Option Enum :=
  if strContains nameUnique "Default__" || strContains nameUnique "PLACEHOLDER-CLASS" then
    none
  else
    some { Name := nameUnique, FullName := fullName, Values := enumValuesDedup [] names }

/-! ### Methods (`Package::GenerateMethods`, lines 588-689) -/

/-- Parameter kinds of `Method::Parameter::Type`: `Default` (input),
`Out` (output), `Ret` (the return value, named `Return` in the source). -/
inductive ParamKind
  | Default
  | Out
  | Ret
deriving DecidableEq

/-- The `Package::Method::Parameter` record. -/
structure Parameter where
  ParamType : ParamKind
  PassByReference : Bool
  Name : String
  CppType : String
  FlagsString : String
deriving DecidableEq

/-- The `Package::Method` record. The native/static flags are the results
of the `UEFunctionFlags` mask tests at lines 612-613. -/
structure Method where
  Index : Nat
  FullName : String
  Name : String
  IsNative : Bool
  IsStatic : Bool
  FlagsString : String
  Parameters : List Parameter
deriving DecidableEq

/-- A child property of a reflected function, as read by the parameter
loop of `GenerateMethods` (lines 619-677). `paramKind` is the result of
`Method::Parameter::MakeType(param.GetPropertyFlags(), ...)`.
Modelled from the spec: `MakeType` is defined outside the source file;
per the spec it classifies a child property into Input, Output or Return
from its flags, and anything unclassifiable is not a parameter —
so its per-parameter outcome is carried as an optional kind here. -/
structure ParamObj where
  elementSize : Nat
  arrayDim : Nat
  nameValid : String
  info : PropInfo
  isBool : Bool
  flagsString : String
  paramKind : Option ParamKind
deriving DecidableEq

/-- A reflected function (a child of the class that `IsA<UEFunction>`),
with the fields read by `GenerateMethods`. `arrayDim` is the value of
`GetArrayDim()` *of the function object itself* — the source consults
`prop.GetArrayDim()` (the outer loop variable, i.e. the function), not
`param.GetArrayDim()`, inside the parameter switch at line 664. -/
structure FuncObj where
  index : Nat
  fullName : String
  nameValid : String
  isNative : Bool
  isStatic : Bool
  flagsString : String
  arrayDim : Nat
  params : List ParamObj
deriving DecidableEq

/-- Generator configuration consumed by the modelled operations:
`GetGlobalMemberAlignment`, `ShouldUseStrings`, `ShouldXorStrings`,
`GetOverrideType("bool")` and `ShouldGenerateEmptyFiles`. -/
structure GenCfg where
  globalMemberAlignment : Nat
  shouldUseStrings : Bool
  shouldXorStrings : Bool
  overrideBool : String
deriving DecidableEq

/-- The parameter loop of `GenerateMethods` (lines 619-677): skip
zero-sized children, unresolved types and children that are not
parameters; de-duplicate names with `dedupStep`; normalize bool
parameters to the configured bool type; and for `Default` parameters,
append `*` when `funcDim > 1` (the array dimension of the *function*
object, mirroring the source), else mark pass-by-reference when the type
info allows it. -/
def buildParams (cfg : GenCfg) (funcDim : Nat) : List ParamObj → List (String × Nat) → List Parameter
  | [], _ => []
  | pm :: ps, names =>
    if pm.elementSize = 0 then buildParams cfg funcDim ps names
    else if pm.info.known then
      match pm.paramKind with
      | none => buildParams cfg funcDim ps names
      | some k =>
        let nmNames := dedupStep names pm.nameValid
        let ct0 := if pm.isBool then cfg.overrideBool else pm.info.cppType
        let ctPbr : String × Bool :=
          match k with
          | .Default =>
            if funcDim > 1 then (ct0 ++ "*", false)
            else if pm.info.canBeReference then (ct0, true)
            else (ct0, false)
          | _ => (ct0, false)
        { ParamType := k, PassByReference := ctPbr.2, Name := nmNames.1
          CppType := ctPbr.1, FlagsString := pm.flagsString } :: buildParams cfg funcDim ps nmNames.2
    else buildParams cfg funcDim ps names

/-- Model of `Package::GenerateMethods(classObj, methods)`: walk the
function children, skip duplicates by full name (the `uniqueMethods`
set), build the parameter list, and sort the `(prop, parameter)` pairs
with `ComparePropertyLess` on the first components. Both components of
every pair are the *function* object itself (line 675 stores `prop`, the
outer loop variable), so the comparator always receives two identical
objects and returns false; the sort therefore preserves order, which the
constant-false comparator below makes explicit. -/
def generateMethodsGo (cfg : GenCfg) : List FuncObj → List String → List Method
  | [], _ => []
  | f :: fs, seen =>
    if f.fullName ∈ seen then generateMethodsGo cfg fs seen
    else
      { Index := f.index, FullName := f.fullName, Name := f.nameValid
        IsNative := f.isNative, IsStatic := f.isStatic, FlagsString := f.flagsString
        Parameters := sortByLess (fun _ _ => false) (buildParams cfg f.arrayDim f.params []) }
      :: generateMethodsGo cfg fs (f.fullName :: seen)

/-- Entry point of the method-model builder. -/
def generateMethods (cfg : GenCfg) (funcs : List FuncObj) : List Method :=
  generateMethodsGo cfg funcs []

/-! ### Virtual-table scan (`Package::GenerateClass`, lines 477-506) -/

/-- Outcome of `VirtualQuery` on a slot address: the protection constant
when the query succeeds (`PAGE_EXECUTE_READWRITE`, `PAGE_EXECUTE_READ`,
or anything else), or failure (`res == 0`). -/
inductive Prot
  | executeReadWrite
  | executeRead
  | other
  | queryFailed
deriving DecidableEq

/-- A virtual-table slot: the stored code address and the protection
classification that `VirtualQuery` reports for it. -/
structure Slot where
  addr : Nat
  prot : Prot
deriving DecidableEq

/-- Protection classes that keep the vtable scan going (line 488). -/
def isExec : Prot → Bool
  | .executeReadWrite => true
  | .executeRead => true
  | _ => false

/-- The slot-counting loop (lines 484-493): count upward from slot 0 and
stop at the first slot whose query fails or whose protection is neither
execute-read-write nor execute-read. The list holds the slot sequence up
to and beyond the terminating slot. -/
def methodCount (vtable : List Slot) : Nat :=
  (vtable.takeWhile (fun s => isExec s.prot)).length

/-- A registered virtual-function byte-pattern rule: `matchesAt a` is the
outcome of `FindPattern(a, 0x200, bytes, mask) != -1` for the external
pattern matcher, and `text i` the accessor body formatted with the bound
slot index (`tfm::format(std::get<2>(pattern), i)`). -/
structure Pattern where
  matchesAt : Nat → Bool
  text : Nat → String

/-- Inner slot scan for one pattern (lines 497-504): walk slots in
ascending index order and return the index of the first non-null slot
whose window matches; `i` is the index of the head slot. -/
def findSlotFrom (m : Nat → Bool) : List Slot → Nat → Option Nat
  | [], _ => none
  | s :: rest, i => if s.addr != 0 && m s.addr then some i else findSlotFrom m rest (i + 1)

/-- Scan for one pattern over the first `count` slots. -/
def findSlot (count : Nat) (vtable : List Slot) (p : Pattern) : Option Nat :=
  findSlotFrom p.matchesAt (vtable.take count) 0

/-- Per-pattern binding outcomes of the whole scan: for each registered
rule, the slot index it binds to, if any. -/
def scanPatterns (vtable : List Slot) (pats : List Pattern) : List (Option Nat) :=
  pats.map (findSlot (methodCount vtable) vtable)

/-! ### Classes and structs (`GenerateClass`, lines 377-509; `Save`, lines 68-94) -/

/-- The two method types of `IGenerator::PredefinedMethod`. -/
inductive PMType
  | default
  | inlineBody
deriving DecidableEq

/-- The `IGenerator::PredefinedMethod` record. -/
structure PredefinedMethod where
  MethodType : PMType
  Body : String
  Signature : String
deriving DecidableEq

/-- Model of `IGenerator::PredefinedMethod::Inline(body)`. -/
def PredefinedMethod.Inline (b : String) : PredefinedMethod :=
  { MethodType := .inlineBody, Body := b, Signature := "" }

/-- The `IGenerator::PredefinedMember` record (name and type text). -/
structure PredefinedMember where
  Name : String
  TypeText : String
deriving DecidableEq

/-- The `Package::Class` record. -/
structure Class where
  Name : String
  FullName : String
  NameCpp : String
  NameCppFull : String
  Size : Nat
  InheritedSize : Nat
  Members : List Member
  PredefinedMethods : List PredefinedMethod
  Methods : List Method

/-- The `Package::ScriptStruct` record. -/
structure ScriptStruct where
  Name : String
  FullName : String
  NameCpp : String
  NameCppFull : String
  Size : Nat
  InheritedSize : Nat
  Members : List Member
  PredefinedMethods : List PredefinedMethod

/-- The body text of the `StaticClass` accessor that `GenerateClass`
appends unconditionally (lines 458-473), for both the string-lookup and
the index-lookup configuration. -/
def staticClassBody (cfg : GenCfg) (fullName : String) (idx : Nat) : String :=
  if cfg.shouldUseStrings then
    "\tstatic UClass* StaticClass()\n\t\x7b\n\t\tstatic auto ptr = UObject::FindClass("
      ++ (if cfg.shouldXorStrings then "_xor_(\"" ++ fullName ++ "\")" else fullName)
      ++ ");\n\t\treturn ptr;\n\t\x7d"
  else
    "\tstatic UClass* StaticClass()\n\t\x7b\n\t\tstatic auto ptr = static_class<UClass*>(UObject::GetGlobalObjects().GetByIndex("
      ++ toString idx ++ "));\n\t\treturn ptr;\n\t\x7d"

/-- The inputs that `Package::GenerateClass` reads for one class: the
reflected names and sizes, the superclass data, the property and function
children, the per-class overrides queried from the generator
(`GetPredefinedClassStaticMembers`, `GetPredefinedClassMembers`,
`GetPredefinedClassMethods`, `GetVirtualFunctionPatterns` — `none` models
the query returning false), the object index, and the instance vtable. -/
structure ClassInput where
  name : String
  fullName : String
  nameCppValid : String
  propertySize : Nat
  superValid : Bool
  superIsSelf : Bool
  superPropertySize : Nat
  superNameCppValid : String
  predefinedStaticMembers : Option (List PredefinedMember)
  predefinedMembers : Option (List PredefinedMember)
  children : List UEProp
  functions : List FuncObj
  predefinedMethodsFromGen : List PredefinedMethod
  classIndex : Nat
  patterns : Option (List Pattern)
  vtable : List Slot

/-- Model of `Package::GenerateClass(classObj)` (lines 377-509). The
`children` list carries the plain property children; struct, function,
enum and const children (excluded by the `IsA` tests at lines 437-440)
are represented separately (`functions`) or not at all. -/
def generateClass (cfg : GenCfg) (inp : ClassInput) : Class :=
  let hasSuper := inp.superValid && !inp.superIsSelf
  let inheritedSize := if hasSuper then inp.superPropertySize else 0
  let nameCppFull :=
    "class " ++ inp.nameCppValid
      ++ (if hasSuper then " : public " ++ inp.superNameCppValid else "")
  let staticMembers : List Member :=
    match inp.predefinedStaticMembers with
    | some l => l.map (fun pm =>
        { Name := pm.Name, TypeText := "static " ++ pm.TypeText, Offset := 0, Size := 0
          Comment := "", Flags := 0, FlagsString := "" })
    | none => []
  let mainMembers : List Member :=
    match inp.predefinedMembers with
    | some l => l.map (fun pm =>
        { Name := pm.Name, TypeText := pm.TypeText, Offset := 0, Size := 0
          Comment := "NOT AUTO-GENERATED PROPERTY", Flags := 0, FlagsString := "" })
    | none =>
      let props := inp.children.filter (fun p =>
        decide (0 < p.elementSize)
          && (!inp.superValid || (!inp.superIsSelf && decide (p.offset ≥ inp.superPropertySize))))
      generateMembers inp.propertySize cfg.globalMemberAlignment inheritedSize
        (sortByLess comparePropertyLess props)
  let patternMethods : List PredefinedMethod :=
    match inp.patterns with
    | none => []
    | some pats =>
      let count := methodCount inp.vtable
      pats.filterMap (fun p => (findSlot count inp.vtable p).map
        (fun i => PredefinedMethod.Inline (p.text i)))
  { Name := inp.name
    FullName := inp.fullName
    NameCpp := inp.nameCppValid
    NameCppFull := nameCppFull
    Size := inp.propertySize
    InheritedSize := inheritedSize
    Members := staticMembers ++ mainMembers
    PredefinedMethods :=
      inp.predefinedMethodsFromGen
        ++ [PredefinedMethod.Inline (staticClassBody cfg inp.fullName inp.classIndex)]
        ++ patternMethods
    Methods := generateMethods cfg inp.functions }

/-! ### `Package::Save` (lines 68-94) -/

/-- The per-package state that `Save` inspects: the accumulated
constants, enums, script structs and classes, plus the package name used
for the output file names. -/
structure PackageModel where
  name : String
  constants : List (String × String)
  enums : List Enum
  scriptStructs : List ScriptStruct
  classes : List Class

/-- The emptiness test of `Save` (lines 75-80): emit when empty-file
generation is forced, or some enum has a value, or some struct has a
member or predefined method, or some class has a member, predefined
method or reconstructed method. The constants map is not consulted. -/
def saveCondition (shouldGenerateEmptyFiles : Bool) (pkg : PackageModel) : Bool :=
  shouldGenerateEmptyFiles
    || (pkg.enums.any (fun e => !e.Values.isEmpty)
        || pkg.scriptStructs.any (fun s => !s.Members.isEmpty || !s.PredefinedMethods.isEmpty)
        || pkg.classes.any (fun c =>
            !c.Members.isEmpty || !c.PredefinedMethods.isEmpty || !c.Methods.isEmpty))

/-- Model of `Package::Save(path)`: when the condition holds, write the
structs, classes and functions artifacts (`SaveStructs`, `SaveClasses`,
`SaveMethods`, file names per lines 695, 712, 747) and return true;
otherwise log and return false, writing nothing. The returned list holds
the names of the files written. -/
def save (shouldGenerateEmptyFiles : Bool) (gameNameShort : String) (pkg : PackageModel) :
    Bool × List String :=
  if saveCondition shouldGenerateEmptyFiles pkg then
    (true,
      [gameNameShort ++ "_" ++ pkg.name ++ "_structs.hpp",
       gameNameShort ++ "_" ++ pkg.name ++ "_classes.hpp",
       gameNameShort ++ "_" ++ pkg.name ++ "_functions.cpp"])
  else
    (false, [])

/-! ### Dependency resolution and the DefinedSet guard
(`GenerateScriptStructPrerequisites`, lines 96-158, and
`GenerateClassPrerequisites`, lines 314-375) -/

/-- State threaded through the recursive prerequisite generation for the
entities of one package: the process-wide `definedClasses` map (a total
function here, mirroring that `definedClasses[x] |= false` registers a
missing key with value false) and the list of entities materialized so
far, in generation order. Entities are drawn from `Fin n`. -/
structure GenState (n : Nat) where
  defined : Fin n → Bool
  generated : List (Fin n)

/-- Flip the DefinedSet entry of one entity to true. -/
def setDefined {n : Nat} (s : GenState n) (e : Fin n) : GenState n :=
  { defined := fun x => if x = e then true else s.defined x, generated := s.generated }

/-- Recursive prerequisite generation for same-package entities, with
`deps e` the dependency order of entity `e`: its superclass first (when
valid and distinct from `e`), then the struct types reached through its
members and container inners (`GenerateMemberPrerequisites`). Following
lines 144-157 and 361-374: when the entity is already defined the call
leaves the state unchanged; otherwise its DefinedSet entry is set to true
*before* recursing into the dependencies, and the entity itself is
materialized (appended to `generated`) after them. The callee re-checks
the guard, which subsumes the `definedClasses[super] == false` pre-check
of the struct variant. A fuel argument bounds the recursion; the
stability theorem below shows any fuel beyond the number of undefined
entities gives the same result. -/
def genPrereq {n : Nat} (deps : Fin n → List (Fin n)) : Nat → GenState n → Fin n → GenState n
  | 0, s, _ => s
  | fuel + 1, s, e =>
    if s.defined e then s
    else
      let s2 := (deps e).foldl (fun st d => genPrereq deps fuel st d) (setDefined s e)
      { defined := s2.defined, generated := s2.generated ++ [e] }

/-- Number of entities whose DefinedSet entry is still false. -/
def undefCount {n : Nat} (s : GenState n) : Nat :=
  (Finset.univ.filter (fun x => s.defined x = false)).card

/-! ### Emission-order repair (lines 119-140 and 336-359) -/

/-- Position of the first occurrence of an element, if present
(`std::find` over the `packageOrder` vector). -/
def posOf? {α : Type} [DecidableEq α] (a : α) : List α → Option Nat
  | [] => none
  | x :: xs => if x = a then some 0 else (posOf? a xs).map (· + 1)

/-- Insert an element so that it lands at the given position
(`std::vector::insert` before the iterator at that position). -/
def insertAt {α : Type} : Nat → α → List α → List α
  | 0, a, l => a :: l
  | _ + 1, a, [] => [a]
  | k + 1, a, x :: xs => x :: insertAt k a xs

/-- Remove the element at the given position (`std::vector::erase`). -/
def removeAt {α : Type} : Nat → List α → List α
  | _, [] => []
  | 0, _ :: xs => xs
  | k + 1, x :: xs => x :: removeAt k xs

/-- Position of the last occurrence of an element (the reverse search of
line 354); meaningful only when the element is present. -/
def lastPosOf {α : Type} [DecidableEq α] (a : α) (l : List α) : Nat :=
  l.length - 1 - ((posOf? a l.reverse).getD 0)

/-- Order repair as performed by `GenerateScriptStructPrerequisites`
(lines 119-137) when a dependency of current unit `A` on the owning unit
`B` of a foreign entity is discovered: ensure `A` is present (append if
absent), then — if `B` is absent, insert it immediately before `A`; if
`B` sits after `A`, erase `B` and insert it immediately before `A`
(the insertion iterator was computed before the erase, and the erase at a
later position leaves it valid); otherwise leave the order unchanged. -/
def repairOrderStruct {α : Type} [DecidableEq α] (order0 : List α) (A B : α) : List α :=
  let order := if (posOf? A order0).isSome then order0 else order0 ++ [A]
  match posOf? B order, posOf? A order with
  | none, some pa => insertAt pa B order
  | some pb, some pa => if pa < pb then insertAt pa B (removeAt pb order) else order
  | _, none => order

/-- Order repair as performed by `GenerateClassPrerequisites`
(lines 336-356): same as the struct variant except that the moved case
triggers on `itPO >= itPTP` and first inserts the new copy of `B` before
`A`, then erases the *last* occurrence of `B` (the re-found old copy,
shifted one slot right by the insertion). Since `A` is present and
`B ≠ A` occupies a different slot, the `>=` cannot hold with equality. -/
def repairOrderClass {α : Type} [DecidableEq α] (order0 : List α) (A B : α) : List α :=
  let order := if (posOf? A order0).isSome then order0 else order0 ++ [A]
  match posOf? B order, posOf? A order with
  | none, some pa => insertAt pa B order
  | some pb, some pa =>
    if pa ≤ pb then
      let o1 := insertAt pa B order
      removeAt (lastPosOf B o1) o1
    else order
  | _, none => order

/-! ### Concrete inputs used by the example and counterexample theorems -/

/-- A four-byte scalar int property at offset 0. -/
def prop0 : UEProp :=
  { offset := 0, elementSize := 4, arrayDim := 1, name := "A", fullName := "F.A"
    info := { known := true, size := 4, cppType := "int", canBeReference := false }
    isBool := false, bitMask := 0, flags := 0, flagsString := "" }

/-- The same property at offset 4. -/
def prop4 : UEProp := { prop0 with offset := 4, name := "B", fullName := "F.B" }

/-- The same property at offset 8. -/
def prop8 : UEProp := { prop0 with offset := 8, name := "C", fullName := "F.C" }

/-- A property whose element size (8) exceeds the mapped type size (4):
the type-size-mismatch filler fires for it. -/
def propMismatch : UEProp := { prop0 with elementSize := 8 }

/-- A mismatching property preceded by a four-byte gap. -/
def propGapMismatch : UEProp := { prop0 with offset := 4, elementSize := 8 }

/-- Three contiguous four-byte properties all named `Value`. -/
def valueProp0 : UEProp := { prop0 with name := "Value" }

/-- The second `Value` property, at offset 4. -/
def valueProp4 : UEProp := { prop4 with name := "Value" }

/-- The third `Value` property, at offset 8. -/
def valueProp8 : UEProp := { prop8 with name := "Value" }

/-- A generator configuration with index-based lookups. -/
def cfg0 : GenCfg :=
  { globalMemberAlignment := 4, shouldUseStrings := false, shouldXorStrings := false
    overrideBool := "bool" }

/-- A class with no property children, no function children and no
generator-predefined members or methods. -/
def emptyClassInput : ClassInput :=
  { name := "C", fullName := "Class F.C", nameCppValid := "UC", propertySize := 0
    superValid := false, superIsSelf := false, superPropertySize := 0, superNameCppValid := ""
    predefinedStaticMembers := none, predefinedMembers := none, children := []
    functions := [], predefinedMethodsFromGen := [], classIndex := 3
    patterns := none, vtable := [] }

/-- A fixed-size-array input parameter (array dimension 4) whose type
info allows pass-by-reference. -/
def arrParam : ParamObj :=
  { elementSize := 4, arrayDim := 4, nameValid := "arr"
    info := { known := true, size := 4, cppType := "int", canBeReference := true }
    isBool := false, flagsString := "", paramKind := some .Default }

/-- A scalar function (array dimension 1) taking the array parameter. -/
def arrFunc : FuncObj :=
  { index := 7, fullName := "F.fn", nameValid := "fn", isNative := false, isStatic := false
    flagsString := "", arrayDim := 1, params := [arrParam] }

/-- A scalar parameter named `Value` that cannot be passed by reference. -/
def dupParam : ParamObj :=
  { elementSize := 4, arrayDim := 1, nameValid := "Value"
    info := { known := true, size := 4, cppType := "int", canBeReference := false }
    isBool := false, flagsString := "", paramKind := some .Default }

/-- A function with three identically named scalar parameters. -/
def dupParamFunc : FuncObj :=
  { arrFunc with params := [dupParam, dupParam, dupParam] }

/-- The mutual-recursion dependency graph on two entities: each depends
on the other. -/
def deps2 : Fin 2 → List (Fin 2) := fun i => if i = 0 then [1] else [0]

/-- A package whose sole entity is the generated model of a class with
zero members and zero methods. -/
def soleClassPkg : PackageModel :=
  { name := "P", constants := [], enums := [], scriptStructs := []
    classes := [generateClass cfg0 emptyClassInput] }

/-- A bare class record with empty member, predefined-method and method
lists (a state `GenerateClass` never actually produces). -/
def rawEmptyClass : Class :=
  { Name := "C", FullName := "Class F.C", NameCpp := "UC", NameCppFull := "class UC"
    Size := 0, InheritedSize := 0, Members := [], PredefinedMethods := [], Methods := [] }

/-- A package holding only the bare empty class record. -/
def rawEmptyClassPkg : PackageModel :=
  { name := "P", constants := [], enums := [], scriptStructs := [], classes := [rawEmptyClass] }

end SDKGen

namespace SDKGen

/-! ## Helper lemmas -/

/-- Tiling segments compose. -/
theorem tilesFrom_append (lo mid hi : Nat) (ms1 ms2 : List Member)
    (h1 : tilesFrom lo ms1 mid = true) (h2 : tilesFrom mid ms2 hi = true) :
    tilesFrom lo (ms1 ++ ms2) hi = true := by
  induction ms1 generalizing lo with
  | nil =>
    simp only [tilesFrom, beq_iff_eq] at h1
    simpa [h1] using h2
  | cons m ms ih =>
    simp only [tilesFrom, Bool.and_eq_true, beq_iff_eq] at h1
    simp only [List.cons_append, tilesFrom, Bool.and_eq_true, beq_iff_eq]
    exact ⟨h1.1, ih _ h1.2⟩

/-- Prepending a member that starts at the cursor preserves tiling. -/
theorem tilesFrom_cons (lo hi : Nat) (m : Member) (ms : List Member)
    (h1 : m.Offset = lo) (h2 : tilesFrom (lo + m.Size) ms hi = true) :
    tilesFrom lo (m :: ms) hi = true := by
  simp [tilesFrom, h1, h2]

/-- An exactly tiled member list has non-decreasing offsets. -/
theorem tilesFrom_nondec (lo hi : Nat) (ms : List Member)
    (h : tilesFrom lo ms hi = true) : offsetsNondec ms = true := by
  induction ms generalizing lo with
  | nil => rfl
  | cons m ms ih =>
    cases ms with
    | nil => rfl
    | cons m2 ms2 =>
      simp only [tilesFrom, Bool.and_eq_true, beq_iff_eq] at h
      obtain ⟨h1, h2, h3⟩ := h
      simp only [offsetsNondec, Bool.and_eq_true, decide_eq_true_eq]
      refine ⟨?_, ih (lo + m.Size) ?_⟩
      · omega
      · simp only [tilesFrom, Bool.and_eq_true, beq_iff_eq]
        exact ⟨h2, h3⟩

/-- The cursor returned by the member loop is `finalCursor`. -/
theorem genMembersLoop_cursor (props : List UEProp) :
    ∀ off ctr names, (genMembersLoop off ctr names props).2.1 = finalCursor off props := by
  induction props with
  | nil => intro off ctr names; rfl
  | cons p ps ih =>
    intro off ctr names
    simp only [genMembersLoop, finalCursor]
    split
    · simpa using ih _ _ _
    · simpa using ih _ _ _

/-- Under the well-formedness hypotheses (every property type-resolved,
scalar, with mapped size equal to element size, ascending and
non-overlapping), the member loop exactly tiles the interval from the
starting cursor to the final cursor. -/
theorem genMembersLoop_tiles (props : List UEProp) :
    ∀ off ctr names, wellFormedFrom off props = true →
    tilesFrom off (genMembersLoop off ctr names props).1 (finalCursor off props) = true := by
  induction props with
  | nil =>
    intro off ctr names _
    simp [genMembersLoop, finalCursor, tilesFrom]
  | cons p ps ih =>
    intro off ctr names hwf
    simp only [wellFormedFrom, Bool.and_eq_true, beq_iff_eq, decide_eq_true_eq] at hwf
    obtain ⟨⟨⟨⟨hknown, hdim⟩, hsz⟩, hoff⟩, hwfs⟩ := hwf
    have hmm : ¬ ((0 : Int) < (p.elementSize * p.arrayDim : Int) - (p.info.size * p.arrayDim : Int)) := by
      rw [hsz]; simp
    have hsum : p.offset + p.elementSize * p.arrayDim = p.offset + p.info.size := by
      rw [hdim, hsz, Nat.mul_one]
    by_cases hlt : off < p.offset
    · simp only [genMembersLoop, hknown, eq_self_iff_true, if_true, if_neg hmm, if_pos hlt,
        finalCursor, List.nil_append]
      refine tilesFrom_cons _ _ _ _ rfl ?_
      show tilesFrom (off + (p.offset - off)) _ _ = true
      have h1 : off + (p.offset - off) = p.offset := by omega
      rw [h1]
      refine tilesFrom_cons _ _ _ _ rfl ?_
      show tilesFrom (p.offset + p.info.size) _ _ = true
      rw [← hsum]
      exact ih _ _ _ hwfs
    · have hoe : off = p.offset := by omega
      simp only [genMembersLoop, hknown, eq_self_iff_true, if_true, if_neg hmm, if_neg hlt,
        finalCursor, List.nil_append]
      refine tilesFrom_cons _ _ _ _ hoe.symm ?_
      show tilesFrom (off + p.info.size) _ _ = true
      have h2 : off + p.info.size = p.offset + p.elementSize * p.arrayDim := by
        rw [hoe, hsum]
      rw [h2]
      exact ih _ _ _ hwfs

/-! ## Claim theorems -/

/-- C1 (counterexample): the tiling invariant fails on the code. A single
type-resolved property at offset 0 with element size 8 but mapped size 4
produces a member spanning bytes 0-4 and a type-size-mismatch filler
whose recorded offset is the stale cursor 0 (not 4), so the spans overlap
on bytes 0-4 and leave bytes 4-8 uncovered. With a preceding gap the
stale cursor also makes the emitted offsets decrease. -/
theorem claimC1_counterexample :
    tilesFrom 0 (generateMembers 8 4 0 [propMismatch]) 8 = false
    ∧ offsetsNondec (generateMembers 12 99 0 [propGapMismatch]) = false := by
  constructor <;> rfl

/-- C1 (amended): when every property is type-resolved, scalar, has its
mapped size equal to its element size, and the properties ascend without
overlap from the inherited offset, and the trailing remainder is zero or
at least the configured threshold, the emitted member list has
non-decreasing offsets and the member and filler spans exactly tile the
interval from the inherited offset to the total size. -/
theorem claimC1_layout_tiling (total threshold off : Nat) (props : List UEProp)
    (hwf : wellFormedFrom off props = true)
    (hle : finalCursor off props ≤ total)
    (hrem : finalCursor off props = total ∨ threshold ≤ total - finalCursor off props) :
    offsetsNondec (generateMembers total threshold off props) = true
    ∧ tilesFrom off (generateMembers total threshold off props) total = true := by
  have hcur := genMembersLoop_cursor props off 0 []
  have htil := genMembersLoop_tiles props off 0 [] hwf
  rw [← hcur] at htil
  have key : tilesFrom off (generateMembers total threshold off props) total = true := by
    simp only [generateMembers]
    by_cases hlt : (genMembersLoop off 0 [] props).2.1 < total
    · rw [if_pos hlt]
      have hth : threshold ≤ total - (genMembersLoop off 0 [] props).2.1 := by
        rcases hrem with h | h
        · rw [hcur] at hlt; omega
        · rw [hcur]; exact h
      rw [if_pos hth]
      refine tilesFrom_append off ((genMembersLoop off 0 [] props).2.1) total _ _ htil ?_
      simp [tilesFrom, memberUnknown]
      omega
    · rw [if_neg hlt]
      have heq : (genMembersLoop off 0 [] props).2.1 = total := by
        rw [hcur] at hlt ⊢; omega
      rw [← heq]
      exact htil
  exact ⟨tilesFrom_nondec off total _ key, key⟩

/-- C1 (witness): the amended tiling theorem applied to two contiguous
four-byte properties in a twelve-byte struct with threshold 4. -/
theorem claimC1_witness :
    wellFormedFrom 0 [prop0, prop4] = true
    ∧ tilesFrom 0 (generateMembers 12 4 0 [prop0, prop4]) 12 = true :=
  ⟨by decide,
   (claimC1_layout_tiling 12 4 0 [prop0, prop4] (by decide) (by decide) (Or.inr (by decide))).2⟩

/-- C7 (confirmed): for properties at offsets 0, 4, 8, each of size 4,
in a struct of total size 16, `GenerateMembers` emits the three regular
members and then exactly one trailing filler covering bytes 12-16 iff the
remainder 4 is at least the configured minimum threshold, for every
threshold value. -/
theorem claimC7_trailing_filler (threshold : Nat) :
    generateMembers 16 threshold 0 [prop0, prop4, prop8] =
      [{ Name := "A", TypeText := "int", Offset := 0, Size := 4, Comment := "", Flags := 0,
         FlagsString := "" },
       { Name := "B", TypeText := "int", Offset := 4, Size := 4, Comment := "", Flags := 0,
         FlagsString := "" },
       { Name := "C", TypeText := "int", Offset := 8, Size := 4, Comment := "", Flags := 0,
         FlagsString := "" }]
      ++ (if threshold ≤ 4 then [memberUnknown 0 12 4 "MISSED OFFSET"] else []) := by
  have hloop : genMembersLoop 0 0 [] [prop0, prop4, prop8] =
      ([{ Name := "A", TypeText := "int", Offset := 0, Size := 4, Comment := "", Flags := 0,
          FlagsString := "" },
        { Name := "B", TypeText := "int", Offset := 4, Size := 4, Comment := "", Flags := 0,
          FlagsString := "" },
        { Name := "C", TypeText := "int", Offset := 8, Size := 4, Comment := "", Flags := 0,
          FlagsString := "" }], 12, 0) := by rfl
  simp only [generateMembers, hloop]
  norm_num
  split <;> simp

/-- C5 (counterexample): inside one member list the second occurrence of
a duplicated name receives suffix `02`, not `01` — the member loop
increments the conflict counter through the map before formatting it. -/
theorem claimC5_counterexample :
    (generateMembers 12 99 0 [valueProp0, valueProp4, valueProp8]).map Member.Name
      = ["Value", "Value02", "Value03"]
    ∧ (["Value", "Value02", "Value03"] ≠ ["Value", "Value01", "Value02"]) := by
  constructor
  · rfl
  · decide

/-- C5 (amended): the first occurrence of a duplicated name is kept
unchanged in all three list kinds, but the suffix sequences differ:
enum-value lists yield `Value`, `Value01`, `Value02` (format before
increment), while member lists and parameter lists yield `Value`,
`Value02`, `Value03` (increment before format). -/
theorem claimC5_dedup_suffixes :
    generateEnum "E" "F.E" ["Value", "Value", "Value"]
      = some { Name := "E", FullName := "F.E", Values := ["Value", "Value01", "Value02"] }
    ∧ (generateMembers 12 99 0 [valueProp0, valueProp4, valueProp8]).map Member.Name
      = ["Value", "Value02", "Value03"]
    ∧ (generateMethods cfg0 [dupParamFunc]).map (fun m => m.Parameters.map Parameter.Name)
      = [["Value", "Value02", "Value03"]] := by
  refine ⟨by rfl, by rfl, by rfl⟩

/-- C2 (counterexample): with empty-artifact emission disabled, `Save` on
a package whose sole entity is a generated class with zero members and
zero methods returns true and writes the three files — the generated
class always carries the `StaticClass` predefined method, so the
emptiness test passes. -/
theorem claimC2_counterexample :
    save false "G" soleClassPkg
      = (true, ["G_P_structs.hpp", "G_P_classes.hpp", "G_P_functions.cpp"]) := by
  rfl

/-- C2 (amended): `Save` on a package whose sole entity is a generated
class with zero members and zero methods returns true and writes the
files regardless of the empty-artifact setting, since `GenerateClass`
unconditionally adds the `StaticClass` accessor; only a class record with
no members, no predefined methods and no methods makes `Save` return
false and write nothing when emission of empty artifacts is disabled, and
return true with the files when it is enabled. -/
theorem claimC2_save_empty_class :
    (∀ emitEmpty : Bool,
      save emitEmpty "G" soleClassPkg
        = (true, ["G_P_structs.hpp", "G_P_classes.hpp", "G_P_functions.cpp"]))
    ∧ save false "G" rawEmptyClassPkg = (false, [])
    ∧ save true "G" rawEmptyClassPkg
        = (true, ["G_P_structs.hpp", "G_P_classes.hpp", "G_P_functions.cpp"]) := by
  refine ⟨?_, by rfl, by rfl⟩
  intro b
  cases b <;> rfl

/-- C6 (code_bug): at the failing input — a function with array
dimension 1 whose sole Input parameter has array dimension 4, a known
type `int` and CanBeReference true — the built parameter is
pass-by-reference with type `int`, because line 664 tests
`prop.GetArrayDim()` (the function) instead of `param.GetArrayDim()`.
The claim (fixed-size-array Input parameters become pointers and are
excluded from pass-by-reference) describes the evident intent. -/
theorem claimC6_param_array_bug :
    (generateMethods cfg0 [arrFunc]).map
        (fun m => m.Parameters.map (fun q => (q.CppType, q.PassByReference)))
      = [[("int", true)]] := by
  rfl

/-- C9 (confirmed): `GenerateClass` unconditionally appends the
`StaticClass` accessor, so every generated class has a non-empty
predefined-method list, and any package whose class list contains a
generated class passes the emptiness test of `Save`. -/
theorem claimC9_staticclass_always (cfg : GenCfg) (inp : ClassInput) :
    (generateClass cfg inp).PredefinedMethods ≠ []
    ∧ ∀ (emitEmpty : Bool) (gameShort nm : String) (consts : List (String × String))
        (es : List Enum) (ss : List ScriptStruct) (rest : List Class),
        (save emitEmpty gameShort
          { name := nm, constants := consts, enums := es, scriptStructs := ss
            classes := generateClass cfg inp :: rest }).1 = true := by
  have hne : (generateClass cfg inp).PredefinedMethods ≠ [] := by
    simp [generateClass]
  refine ⟨hne, ?_⟩
  intro b gs nm cs es ss rest
  have hPM : ((generateClass cfg inp).PredefinedMethods).isEmpty = false := by
    cases h : (generateClass cfg inp).PredefinedMethods with
    | nil => exact absurd h hne
    | cons a l => rfl
  simp [save, saveCondition, hPM]

/-- C9 (witness): the invariant applied to the concrete empty class
input and a package containing only its generated class. -/
theorem claimC9_witness :
    (generateClass cfg0 emptyClassInput).PredefinedMethods ≠ []
    ∧ (save false "G"
        { name := "P", constants := [], enums := [], scriptStructs := []
          classes := [generateClass cfg0 emptyClassInput] }).1 = true :=
  ⟨(claimC9_staticclass_always cfg0 emptyClassInput).1,
   (claimC9_staticclass_always cfg0 emptyClassInput).2 false "G" "P" [] [] [] []⟩

/-- C10 (confirmed): the emptiness test of `Save` never inspects the
constants map — the result is invariant under replacing the constants;
with emission disabled a constants-only package returns false and writes
nothing; and one enum with at least one value suffices for `Save` to
return true and write all three files even with emission disabled. -/
theorem claimC10_constants_ignored :
    (∀ (b : Bool) (gs nm : String) (cs cs2 : List (String × String)) (es : List Enum)
        (ss : List ScriptStruct) (cl : List Class),
        save b gs { name := nm, constants := cs, enums := es, scriptStructs := ss, classes := cl }
          = save b gs
              { name := nm, constants := cs2, enums := es, scriptStructs := ss, classes := cl })
    ∧ (∀ (gs nm : String) (cs : List (String × String)),
        save false gs { name := nm, constants := cs, enums := [], scriptStructs := [], classes := [] }
          = (false, []))
    ∧ (∀ (gs nm : String) (cs : List (String × String)) (e : Enum), e.Values ≠ [] →
        save false gs { name := nm, constants := cs, enums := [e], scriptStructs := [], classes := [] }
          = (true, [gs ++ "_" ++ nm ++ "_structs.hpp", gs ++ "_" ++ nm ++ "_classes.hpp",
                    gs ++ "_" ++ nm ++ "_functions.cpp"])) := by
  refine ⟨?_, ?_, ?_⟩
  · intro b gs nm cs cs2 es ss cl
    rfl
  · intro gs nm cs
    rfl
  · intro gs nm cs e he
    have hv : (!e.Values.isEmpty) = true := by
      cases h : e.Values with
      | nil => exact absurd h he
      | cons a l => rfl
    simp [save, saveCondition, hv]

/-- The slot count of a table made of an all-executable prefix, a
terminating slot and an arbitrary tail is the length of the prefix. -/
theorem methodCount_exec_front (ex : List Slot) (hex : ∀ s ∈ ex, isExec s.prot = true)
    (bad : Slot) (hbad : isExec bad.prot = false) (tail : List Slot) :
    methodCount (ex ++ bad :: tail) = ex.length := by
  induction ex with
  | nil => simp [methodCount, List.takeWhile_cons, hbad]
  | cons s rest ih =>
    have hs := hex s (List.mem_cons_self s rest)
    have ih2 := ih (fun x hx => hex x (List.mem_cons_of_mem s hx))
    simp only [List.cons_append, methodCount, List.takeWhile_cons, hs, if_true,
      List.length_cons] at ih2 ⊢
    omega

/-- Characterization of the inner pattern scan: a returned index points
at the first slot of the scanned list that is non-null and matches, and
every earlier slot fails the test. -/
theorem findSlotFrom_first (m : Nat → Bool) :
    ∀ (l : List Slot) (i j : Nat), findSlotFrom m l i = some j →
      ∃ l1 s l2, l = l1 ++ s :: l2 ∧ i + l1.length = j
        ∧ (s.addr != 0 && m s.addr) = true
        ∧ ∀ x ∈ l1, (x.addr != 0 && m x.addr) = false := by
  intro l
  induction l with
  | nil => intro i j h; simp [findSlotFrom] at h
  | cons s rest ih =>
    intro i j h
    cases hcond : (s.addr != 0 && m s.addr) with
    | true =>
      rw [findSlotFrom, if_pos hcond] at h
      obtain rfl : i = j := by injection h
      exact ⟨[], s, rest, rfl, by simp, hcond, by simp⟩
    | false =>
      rw [findSlotFrom, if_neg (by simp [hcond])] at h
      obtain ⟨l1, s1, l2, heq, hlen, hm, hnone⟩ := ih (i + 1) j h
      refine ⟨s :: l1, s1, l2, by rw [heq]; rfl, by simp [List.length_cons]; omega, hm, ?_⟩
      intro x hx
      rcases List.mem_cons.mp hx with rfl | hx2
      · exact hcond
      · exact hnone x hx2

/-- A DefinedSet entry that is true stays true across prerequisite
generation: entries are never reset. -/
theorem genPrereq_defined_mono {n : Nat} (deps : Fin n → List (Fin n)) :
    ∀ (fuel : Nat) (s : GenState n) (e x : Fin n), s.defined x = true →
      (genPrereq deps fuel s e).defined x = true := by
  intro fuel
  induction fuel with
  | zero => intro s e x h; exact h
  | succ fuel ih =>
    intro s e x h
    by_cases hd : s.defined e = true
    · rw [genPrereq, if_pos hd]; exact h
    · have hfold : ∀ (l : List (Fin n)) (t : GenState n), t.defined x = true →
          ((l.foldl (fun st d => genPrereq deps fuel st d) t).defined x = true) := by
        intro l
        induction l with
        | nil => intro t ht; exact ht
        | cons d ds ihl => intro t ht; exact ihl _ (ih t d x ht)
      rw [genPrereq, if_neg hd]
      exact hfold _ _ (by simp [setDefined, h])

/-- Re-invoking prerequisite generation on an already-defined entity is
a no-op on the state. -/
theorem genPrereq_noop {n : Nat} (deps : Fin n → List (Fin n)) :
    ∀ (fuel : Nat) (s : GenState n) (e : Fin n), s.defined e = true →
      genPrereq deps fuel s e = s := by
  intro fuel s e h
  cases fuel with
  | zero => rfl
  | succ fuel => rw [genPrereq, if_pos h]

/-- After a call with positive fuel the entity itself is defined. -/
theorem genPrereq_defined_self {n : Nat} (deps : Fin n → List (Fin n)) (fuel : Nat)
    (s : GenState n) (e : Fin n) : (genPrereq deps (fuel + 1) s e).defined e = true := by
  by_cases hd : s.defined e = true
  · rw [genPrereq_noop deps _ s e hd]; exact hd
  · have hfold : ∀ (l : List (Fin n)) (t : GenState n), t.defined e = true →
        ((l.foldl (fun st d => genPrereq deps fuel st d) t).defined e = true) := by
      intro l
      induction l with
      | nil => intro t ht; exact ht
      | cons d ds ihl => intro t ht; exact ihl _ (genPrereq_defined_mono deps fuel t d e ht)
    rw [genPrereq, if_neg hd]
    exact hfold _ _ (by simp [setDefined])

/-- Pointwise monotone DefinedSet maps have at most as many undefined
entries. -/
theorem undefCount_le_of_mono {n : Nat} {s t : GenState n}
    (h : ∀ x, s.defined x = true → t.defined x = true) : undefCount t ≤ undefCount s := by
  apply Finset.card_le_card
  intro x hx
  simp only [Finset.mem_filter, Finset.mem_univ, true_and] at hx ⊢
  cases hs : s.defined x with
  | false => rfl
  | true =>
    have := h x hs
    rw [hx] at this
    exact absurd this (by decide)

/-- Prerequisite generation never increases the number of undefined
entities. -/
theorem undefCount_genPrereq_le {n : Nat} (deps : Fin n → List (Fin n)) (fuel : Nat)
    (s : GenState n) (e : Fin n) : undefCount (genPrereq deps fuel s e) ≤ undefCount s :=
  undefCount_le_of_mono (fun x hx => genPrereq_defined_mono deps fuel s e x hx)

/-- Flipping one undefined entity decrements the undefined count. -/
theorem undefCount_setDefined {n : Nat} (s : GenState n) (e : Fin n)
    (h : s.defined e = false) : undefCount (setDefined s e) + 1 = undefCount s := by
  unfold undefCount
  have hset : (Finset.univ.filter fun x => (setDefined s e).defined x = false)
      = (Finset.univ.filter fun x => s.defined x = false).erase e := by
    ext x
    simp only [Finset.mem_filter, Finset.mem_univ, true_and, Finset.mem_erase, setDefined]
    constructor
    · intro hx
      by_cases hxe : x = e
      · rw [if_pos hxe] at hx; exact absurd hx (by decide)
      · rw [if_neg hxe] at hx; exact ⟨hxe, hx⟩
    · intro hx
      rw [if_neg hx.1]; exact hx.2
  rw [hset]
  exact Finset.card_erase_add_one (by simp [h])

/-- Fuel stability: any two fuel values that are at least the number of
undefined entities produce the same result — the recursion terminates on
arbitrary (also self- or mutually-referential) dependency graphs because
every nested call happens only after one more entity has been flipped. -/
theorem genPrereq_stable {n : Nat} (deps : Fin n → List (Fin n)) :
    ∀ (k : Nat) (s : GenState n) (e : Fin n) (f g : Nat),
      undefCount s ≤ k → undefCount s ≤ f → undefCount s ≤ g →
      genPrereq deps (f + 1) s e = genPrereq deps (g + 1) s e := by
  intro k
  induction k with
  | zero =>
    intro s e f g hk _ _
    have hall : s.defined e = true := by
      cases hd : s.defined e with
      | true => rfl
      | false =>
        have hmem : e ∈ Finset.univ.filter (fun x => s.defined x = false) := by simp [hd]
        have hpos : 0 < undefCount s := Finset.card_pos.mpr ⟨e, hmem⟩
        omega
    rw [genPrereq_noop deps _ s e hall, genPrereq_noop deps _ s e hall]
  | succ k ih =>
    intro s e f g hk hf hg
    by_cases hd : s.defined e = true
    · rw [genPrereq_noop deps _ s e hd, genPrereq_noop deps _ s e hd]
    · have hdf : s.defined e = false := by
        cases hds : s.defined e with
        | true => exact absurd hds hd
        | false => rfl
      have hcount : undefCount (setDefined s e) + 1 = undefCount s :=
        undefCount_setDefined s e hdf
      have hfold : ∀ (l : List (Fin n)) (t : GenState n),
          undefCount t ≤ undefCount (setDefined s e) →
          l.foldl (fun st d => genPrereq deps f st d) t
            = l.foldl (fun st d => genPrereq deps g st d) t := by
        intro l
        induction l with
        | nil => intro t _; rfl
        | cons d ds ihl =>
          intro t ht
          obtain ⟨fp, rfl⟩ : ∃ fp, f = fp + 1 := ⟨f - 1, by omega⟩
          obtain ⟨gp, rfl⟩ : ∃ gp, g = gp + 1 := ⟨g - 1, by omega⟩
          have h1 : genPrereq deps (fp + 1) t d = genPrereq deps (gp + 1) t d :=
            ih t d fp gp (by omega) (by omega) (by omega)
          simp only [List.foldl_cons]
          rw [h1]
          exact ihl (genPrereq deps (gp + 1) t d)
            (le_trans (undefCount_genPrereq_le deps (gp + 1) t d) ht)
      rw [genPrereq, if_neg hd, genPrereq, if_neg hd,
        hfold (deps e) (setDefined s e) (le_refl _)]

/-- C3 (confirmed): DefinedSet entries are monotone (a true entry is
never reset, so each entity flips false to true at most once, and the
flip happens before the recursion into its dependencies); re-invoking
generation on an already-defined entity leaves the state untouched; a
call always leaves its entity defined; and any fuel at least the number
of undefined entities yields the same result, so the recursion
terminates on self- and mutually-referential type graphs. -/
theorem claimC3_definedset_guard (n : Nat) (deps : Fin n → List (Fin n)) :
    (∀ (fuel : Nat) (s : GenState n) (e x : Fin n), s.defined x = true →
        (genPrereq deps fuel s e).defined x = true)
    ∧ (∀ (fuel : Nat) (s : GenState n) (e : Fin n), s.defined e = true →
        genPrereq deps fuel s e = s)
    ∧ (∀ (fuel : Nat) (s : GenState n) (e : Fin n),
        (genPrereq deps (fuel + 1) s e).defined e = true)
    ∧ (∀ (s : GenState n) (e : Fin n) (f g : Nat), undefCount s ≤ f → undefCount s ≤ g →
        genPrereq deps (f + 1) s e = genPrereq deps (g + 1) s e) :=
  ⟨genPrereq_defined_mono deps, genPrereq_noop deps, genPrereq_defined_self deps,
   fun s e f g hf hg => genPrereq_stable deps (undefCount s) s e f g (le_refl _) hf hg⟩

/-- C3 (witness): on the two-entity mutual cycle, generation on an
all-defined state is a no-op, and fuels 3 and 8 (both beyond the two
undefined entities) agree from the all-undefined state. -/
theorem claimC3_witness :
    genPrereq deps2 1 { defined := fun _ => true, generated := [] } 0
      = { defined := fun _ => true, generated := [] }
    ∧ genPrereq deps2 3 { defined := fun _ => false, generated := [] } 0
      = genPrereq deps2 8 { defined := fun _ => false, generated := [] } 0 :=
  ⟨(claimC3_definedset_guard 2 deps2).2.1 1 _ 0 rfl,
   (claimC3_definedset_guard 2 deps2).2.2.2 _ 0 2 7 (by decide) (by decide)⟩

/-- C8 (confirmed): on a table of five executable slots followed by a
non-executable slot and an arbitrary continuation, the slot bound is 5
regardless of what follows and of how many patterns are registered; the
per-pattern bindings are exactly the scans of the five-slot prefix
(slots at or beyond the bound never influence them); and every binding
points at the first non-null matching slot of the prefix in ascending
index order, with all earlier slots failing. -/
theorem claimC8_vtable_scan (ex : List Slot) (hlen : ex.length = 5)
    (hex : ∀ s ∈ ex, isExec s.prot = true) (bad : Slot) (hbad : isExec bad.prot = false)
    (tail : List Slot) (pats : List Pattern) :
    methodCount (ex ++ bad :: tail) = 5
    ∧ scanPatterns (ex ++ bad :: tail) pats
        = pats.map (fun p => findSlotFrom p.matchesAt ex 0)
    ∧ (∀ (p : Pattern) (j : Nat),
        findSlot (methodCount (ex ++ bad :: tail)) (ex ++ bad :: tail) p = some j →
        j < 5 ∧ ∃ l1 s l2, ex = l1 ++ s :: l2 ∧ l1.length = j
          ∧ (s.addr != 0 && p.matchesAt s.addr) = true
          ∧ ∀ x ∈ l1, (x.addr != 0 && p.matchesAt x.addr) = false) := by
  have hmc : methodCount (ex ++ bad :: tail) = 5 := by
    rw [methodCount_exec_front ex hex bad hbad tail, hlen]
  have htake : (ex ++ bad :: tail).take (methodCount (ex ++ bad :: tail)) = ex := by
    rw [hmc, ← hlen]
    exact List.take_left ex (bad :: tail)
  have hf : findSlot (methodCount (ex ++ bad :: tail)) (ex ++ bad :: tail)
      = fun p => findSlotFrom p.matchesAt ex 0 := by
    funext p
    unfold findSlot
    rw [htake]
  refine ⟨hmc, ?_, ?_⟩
  · simp [scanPatterns, hf]
  · intro p j h
    rw [hf] at h
    obtain ⟨l1, s, l2, heq, hlenn, hm, hnone⟩ := findSlotFrom_first p.matchesAt ex 0 j h
    have hl1 : l1.length = j := by omega
    have hj : j < 5 := by
      rw [heq] at hlen
      simp [List.length_append] at hlen
      omega
    exact ⟨hj, l1, s, l2, heq, hl1, hm, hnone⟩

/-- C8 (witness): the bound theorem applied to a concrete table of five
executable slots, one non-executable slot and one further executable
slot, with two registered patterns. -/
theorem claimC8_witness :
    methodCount
        ([⟨1, .executeRead⟩, ⟨2, .executeReadWrite⟩, ⟨3, .executeRead⟩, ⟨4, .executeRead⟩,
          ⟨5, .executeRead⟩] ++ (⟨6, .other⟩ : Slot) :: [⟨7, .executeRead⟩]) = 5 :=
  (claimC8_vtable_scan _ (by decide) (by decide) _ (by decide) _
      [⟨fun a => a == 3, fun _ => ""⟩, ⟨fun _ => false, fun _ => ""⟩]).1

/-- C4 (counterexample): in the order `[B, X, A]` (with `A` the current
unit, `B = 0`, `X = 1`, `A = 2`) the dependency `B` sits *before* `A`,
so both repair variants leave the order unchanged — it does not become
`[X, B, A]` as the claim states. -/
theorem claimC4_counterexample :
    repairOrderStruct ([0, 1, 2] : List (Fin 4)) 2 0 = [0, 1, 2]
    ∧ repairOrderClass ([0, 1, 2] : List (Fin 4)) 2 0 = [0, 1, 2]
    ∧ ([0, 1, 2] : List (Fin 4)) ≠ [1, 0, 2] := by
  decide

/-- C4 (amended): for distinct units, both repair variants insert an
absent `B` immediately before `A` (so `[A]` becomes `[B, A]`), move a `B`
found after `A` to immediately before `A` (so `[X, A, B]` becomes
`[X, B, A]`), and leave the order unchanged when `B` already precedes `A`
(so `[B, X, A]` stays `[B, X, A]`). -/
theorem claimC4_order_repair :
    ∀ (a b x : Fin 4), a ≠ b → a ≠ x → b ≠ x →
      (repairOrderStruct [a] a b = [b, a] ∧ repairOrderClass [a] a b = [b, a])
      ∧ (repairOrderStruct [x, a, b] a b = [x, b, a]
          ∧ repairOrderClass [x, a, b] a b = [x, b, a])
      ∧ (repairOrderStruct [b, x, a] a b = [b, x, a]
          ∧ repairOrderClass [b, x, a] a b = [b, x, a]) := by
  decide

/-- C4 (witness): the amended repair theorem at `A = 2`, `B = 0`,
`X = 1`. -/
theorem claimC4_witness :
    repairOrderStruct ([2] : List (Fin 4)) 2 0 = [0, 2]
    ∧ repairOrderStruct ([1, 2, 0] : List (Fin 4)) 2 0 = [1, 0, 2] :=
  ⟨(claimC4_order_repair 2 0 1 (by decide) (by decide) (by decide)).1.1,
   (claimC4_order_repair 2 0 1 (by decide) (by decide) (by decide)).2.1.1⟩

/-- C10 (witness): the enum branch applied to a package holding one
constant and one single-valued enum, with emission disabled. -/
theorem claimC10_witness :
    save false "G"
        { name := "P", constants := [("K", "1")]
          enums := [{ Name := "E", FullName := "F.E", Values := ["V"] }]
          scriptStructs := [], classes := [] }
      = (true, ["G_P_structs.hpp", "G_P_classes.hpp", "G_P_functions.cpp"]) :=
  claimC10_constants_ignored.2.2 "G" "P" [("K", "1")]
    { Name := "E", FullName := "F.E", Values := ["V"] } (by decide)

end SDKGen
